import Mathlib

/-!
Verification of the SermoDigital/bolt Neo4j Bolt driver core: the PackStream
codec, the chunked framer, the connection state machine, the statement/rows
flow and the summary parser, shallowly embedded in Lean from the Go source.
Bytes are modelled as `Nat` values below 256; machine integers are `Int`
with explicit two's-complement truncation where the code truncates.
-/

namespace Bolt

/-! ## Byte-level helpers -/

/-- Big-endian rendering of the low `k` bytes of a natural number. -/
def natBE : Nat → Nat → List Nat
  | 0, _ => []
  | k+1, n => (n / 2 ^ (8 * k)) % 256 :: natBE k n

/-- Big-endian two's-complement rendering of an integer on `k` bytes,
mirroring Go's `binary.Write(w, binary.BigEndian, intN(v))`. -/
def toBE (k : Nat) (v : Int) : List Nat :=
  natBE k ((v.emod (2 ^ (8 * k))).toNat)

/-- Reassemble `k` big-endian bytes into a natural number. -/
def fromBE : List Nat → Nat
  | [] => 0
  | b :: bs => b * 2 ^ (8 * bs.length) + fromBE bs

/-- Signed reinterpretation of a `k`-byte big-endian value, mirroring Go's
`int64(intN(...))` widening conversions in the decoder. -/
def fromBEsigned (k : Nat) (bs : List Nat) : Int :=
  let n := fromBE bs
  if n < 2 ^ (8 * k - 1) then (n : Int) else (n : Int) - 2 ^ (8 * k)

/-- Two big-endian bytes, as written by `binary.Write(w, BigEndian, uint16(n))`. -/
def be16 (n : Nat) : List Nat := [(n / 256) % 256, n % 256]

/-! ## PackStream marker bytes (package `encoding` constants) -/

def TinyString : Nat := 0x80
def TinySlice : Nat := 0x90
def TinyMap : Nat := 0xA0
def TinyStruct : Nat := 0xB0
def packedLower : Nat := 0x80
def packedUpper : Nat := 0xC0
def NilMarker : Nat := 0xC0
def FloatMarker : Nat := 0xC1
def FalseMarker : Nat := 0xC2
def TrueMarker : Nat := 0xC3
def Int8 : Nat := 0xC8
def Int16 : Nat := 0xC9
def Int32 : Nat := 0xCA
def Int64 : Nat := 0xCB
def String8 : Nat := 0xD0
def String16 : Nat := 0xD1
def String32 : Nat := 0xD2
def Slice8 : Nat := 0xD4
def Slice16 : Nat := 0xD5
def Slice32 : Nat := 0xD6
def Map8 : Nat := 0xD8
def Map16 : Nat := 0xD9
def Map32 : Nat := 0xDA
def Struct8 : Nat := 0xDC
def Struct16 : Nat := 0xDD

/-! ## Encoder integer narrowing (`Encoder.encodeInt`) -/

/-- Direct translation of `Encoder.encodeInt`: the cascade of strict
comparisons against `math.MinInt32`, `math.MinInt16`, `math.MinInt8`, `-16`,
`math.MaxInt8`, `math.MaxInt16`, `math.MaxInt32` and `math.MaxInt64`,
returning the marker byte followed by the big-endian payload. -/
def encodeInt (val : Int) : Option (List Nat) :=
  if val < -2147483648 then some (Int64 :: toBE 8 val)
  else if val < -32768 then some (Int32 :: toBE 4 val)
  else if val < -128 then some (Int16 :: toBE 2 val)
  else if val < -16 then some (Int8 :: toBE 1 val)
  else if val < 127 then some (toBE 1 val)
  else if val < 32767 then some (Int16 :: toBE 2 val)
  else if val < 2147483647 then some (Int32 :: toBE 4 val)
  else if val ≤ 9223372036854775807 then some (Int64 :: toBE 8 val)
  else none

/-! ## The chunked framer (`chunkWriter`)

State of Go's `chunkWriter`: `buf` holds the live buffered bytes (the first
`n` bytes of the backing array; its capacity, 65535 from `NewEncoder`, never
falls below `size`), `size` is the chunk size, and `out` is everything
written to the underlying `io.Writer` so far. -/

structure CW where
  buf : List Nat
  size : Nat
  out : List Nat
  deriving Repr, DecidableEq

/-- Go `chunkWriter.writeChunk`: skip when nothing is buffered, otherwise
emit a big-endian u16 length followed by the buffered bytes and reset. -/
def writeChunk (w : CW) : CW :=
  if w.buf.length = 0 then w
  else { w with out := w.out ++ be16 w.buf.length ++ w.buf, buf := [] }

/-- Go `chunkWriter.Write` / `WriteString`: the copy loop. Each pass copies
`m = copy(w.buf[w.n:], p[n:])` bytes — bounded by the free space of the
`cap`-byte backing array (65535 from `NewEncoder`; never reallocated
smaller), NOT by the configured `size` — and flushes a chunk only when `w.n`
lands exactly on `w.size`. `fuel` bounds the iteration count; `p.length + 1`
suffices whenever every pass makes progress (in the `m = 0` starvation state,
where the Go loop spins forever, the model returns with the payload
unconsumed). -/
def chunkWriteLoop (cap : Nat) : Nat → CW → List Nat → CW
  | 0, w, _ => w
  | fuel + 1, w, p =>
    if p = [] then w
    else
      let m := min (cap - w.buf.length) p.length
      let w' := { w with buf := w.buf ++ p.take m }
      if w'.buf.length = w'.size then chunkWriteLoop cap fuel (writeChunk w') (p.drop m)
      else chunkWriteLoop cap fuel w' (p.drop m)

/-- One `chunkWriter.Write` call against a backing array of length `cap`. -/
def chunkWrite (cap : Nat) (w : CW) (p : List Nat) : CW :=
  chunkWriteLoop cap (p.length + 1) w p

/-- Go `chunkWriter.Flush`: emit the pending chunk, then the `00 00`
end-of-message marker. -/
def flushCW (w : CW) : CW :=
  let w' := writeChunk w
  { w' with out := w'.out ++ [0, 0] }

/-- A fresh writer fed a sequence of `Write` calls and then flushed.
`NewEncoder` always allocates a 65535-byte backing array and `SetChunkSize`
never shrinks it (`int(size) > len(buf)` is false for every `uint16` size),
so the capacity is fixed at 65535 whatever the configured `size`. -/
def cwRun (size : Nat) (ws : List (List Nat)) : CW :=
  flushCW (ws.foldl (chunkWrite 65535) { buf := [], size := size, out := [] })

/-- Concatenation of a list of byte lists. -/
def flat : List (List Nat) → List Nat
  | [] => []
  | x :: xs => x ++ flat xs

/-- Modelled from the spec: the complete (full-size) chunks of a payload when
the chunk size is `s + 1`. -/
def fullChunks (s : Nat) (l : List Nat) : List (List Nat) :=
  if l.length < s + 1 then []
  else l.take (s + 1) :: fullChunks s (l.drop (s + 1))
  termination_by l.length
  decreasing_by simp only [List.length_drop]; omega

/-- Modelled from the spec: the trailing partial chunk of a payload when the
chunk size is `s + 1`. -/
def remChunk (s : Nat) (l : List Nat) : List Nat :=
  if l.length < s + 1 then l
  else remChunk s (l.drop (s + 1))
  termination_by l.length
  decreasing_by simp only [List.length_drop]; omega

/-- Modelled from the spec: the chunking of a payload — full chunks followed
by the remainder when it is nonempty. -/
def chunksOf (s : Nat) (l : List Nat) : List (List Nat) :=
  fullChunks s l ++ if remChunk s l = [] then [] else [remChunk s l]

/-- The wire rendering of a chunk list: each chunk preceded by its big-endian
u16 length. -/
def renderChunks (cs : List (List Nat)) : List Nat :=
  flat (cs.map fun c => be16 c.length ++ c)

/-! ## `Encoder.SetChunkSize` -/

/-- One iteration of the flush loop in `Encoder.SetChunkSize`: set `n = size`
(truncating the live bytes to the first `size`), emit that chunk (which zeros
`n`), then `e.w.n = uint16(copy(e.w.buf[:e.w.size], e.w.buf[e.w.n:]))` —
because `writeChunk` has just set `n` to zero, the copy reads the buffer from
position 0 and returns `size`, so the live bytes are the same first `size`
bytes again. -/
def setSizeIter (w : CW) : CW :=
  let w1 := { w with buf := w.buf.take w.size }
  let w2 := writeChunk w1
  { w2 with buf := w1.buf }

/-- The `for e.w.n >= e.w.size` loop of `Encoder.SetChunkSize`, with fuel;
`none` means the fuel ran out with the loop condition still true. -/
def setSizeLoop : Nat → CW → Option CW
  | 0, _ => none
  | fuel + 1, w =>
    if w.buf.length < w.size then some w
    else setSizeLoop fuel (setSizeIter w)

/-- Go `Encoder.SetChunkSize`: a no-op on equal size; allocates a fresh
(empty) buffer when the new size exceeds the backing array `buflen`;
otherwise runs the flush loop. -/
def SetChunkSize (fuel : Nat) (w : CW) (size buflen : Nat) : Option CW :=
  if w.size = size then some w
  else
    let w' : CW := { w with size := size }
    if buflen < size then some { w' with buf := [] }
    else setSizeLoop fuel w'

/-! ## The PackStream value universe

Go's codec exchanges `interface{}` values: nil, bool, int64, float64, string,
`[]interface{}`, `map[string]interface{}` and `structures.Structure` (a
signature byte plus a field list). Strings are byte strings (`List Nat`),
floats are their IEEE-754 bit patterns (compared bitwise), and maps are
association lists in Go iteration order. -/

inductive Val where
  | null
  | bool (b : Bool)
  | int (i : Int)
  | float (bits : Nat)
  | str (s : List Nat)
  | list (xs : List Val)
  | map (kvs : List (List Nat × Val))
  | struct (sig : Nat) (fields : List Val)

/-- Decoder failure: `fail` is a returned `error`; `oob` is a Go runtime
panic (negative slice bound or failed unchecked type assertion). -/
inductive DErr where
  | fail
  | oob
  deriving Repr, DecidableEq

/-! ## Encoder (`Encoder.encode` and friends) -/

/-- Header bytes of `Encoder.encodeString`: tiny nibble marker, or
String8/16/32 with the length in 1/2/4 bytes; longer strings error. -/
def stringHeader (n : Nat) : Option (List Nat) :=
  if n ≤ 15 then some [TinyString + n]
  else if n ≤ 255 then some [String8, n]
  else if n ≤ 65535 then some (String16 :: be16 n)
  else if n ≤ 4294967295 then some (String32 :: natBE 4 n)
  else none

/-- Go `Encoder.encodeString`. -/
def encodeString (s : List Nat) : Option (List Nat) :=
  (stringHeader s.length).map (· ++ s)

/-- Header bytes of `Encoder.encodeSlice`. -/
def sliceHeader (n : Nat) : Option (List Nat) :=
  if n ≤ 15 then some [TinySlice + n]
  else if n ≤ 255 then some [Slice8, n]
  else if n ≤ 65535 then some (Slice16 :: be16 n)
  else if n ≤ 4294967295 then some (Slice32 :: natBE 4 n)
  else none

/-- Header bytes of `Encoder.encodeMap`. -/
def mapHeader (n : Nat) : Option (List Nat) :=
  if n ≤ 15 then some [TinyMap + n]
  else if n ≤ 255 then some [Map8, n]
  else if n ≤ 65535 then some (Map16 :: be16 n)
  else if n ≤ 4294967295 then some (Map32 :: natBE 4 n)
  else none

/-- Header bytes of `Encoder.encodeStructure` (no 32-bit variant). -/
def structHeader (n : Nat) : Option (List Nat) :=
  if n ≤ 15 then some [TinyStruct + n]
  else if n ≤ 255 then some [Struct8, n]
  else if n ≤ 65535 then some (Struct16 :: be16 n)
  else none

mutual

/-- Go `Encoder.encode`: dispatch on the dynamic type of the value. -/
def encode : Val → Option (List Nat)
  | .null => some [NilMarker]
  | .bool b => some [if b then TrueMarker else FalseMarker]
  | .int i => encodeInt i
  | .float bits => some (FloatMarker :: natBE 8 bits)
  | .str s => encodeString s
  | .list xs =>
    (sliceHeader xs.length).bind fun hdr =>
      (encodeList xs).map fun body => hdr ++ body
  | .map kvs =>
    (mapHeader kvs.length).bind fun hdr =>
      (encodePairs kvs).map fun body => hdr ++ body
  | .struct sig fields =>
    (structHeader fields.length).bind fun hdr =>
      (encodeList fields).map fun body => hdr ++ [sig] ++ body

/-- The field/element loop of `encodeSlice` / `encodeStructure`. -/
def encodeList : List Val → Option (List Nat)
  | [] => some []
  | x :: xs =>
    (encode x).bind fun bx => (encodeList xs).map fun rest => bx ++ rest

/-- The key/value loop of `encodeMap` (`e.encode(k)` then `e.encode(v)`). -/
def encodePairs : List (List Nat × Val) → Option (List Nat)
  | [] => some []
  | (k, v) :: kvs =>
    (encodeString k).bind fun bk =>
      (encode v).bind fun bv =>
        (encodePairs kvs).map fun rest => bk ++ bv ++ rest

end

/-! ## Decoder (`Decoder.decode` and friends)

The decoder reads a byte stream; `readByte`/`readN` model `ReadByte` and
`io.ReadFull`, failing when the input is exhausted. Every decode function
carries fuel (an artifact of the embedding; any fuel larger than the input
length suffices) and models Go panics as `DErr.oob`. -/

def readByte : List Nat → Except DErr (Nat × List Nat)
  | [] => .error .fail
  | b :: r => .ok (b, r)

def readN (k : Nat) (input : List Nat) : Except DErr (List Nat × List Nat) :=
  if k ≤ input.length then .ok (input.take k, input.drop k) else .error .fail

/-- Go `adjust`: collapse tiny-marker nibbles to the marker base. -/
def adjust (c : Nat) : Nat :=
  if c < packedUpper ∧ packedLower < c then c - c % 16 else c

/-- Go `Decoder.decodeString`: zero length is the empty string; a negative
length panics slicing `d.scratch[0:size]`; otherwise read that many bytes. -/
def decodeStringF (size : Int) (input : List Nat) : Except DErr (Val × List Nat) :=
  if size = 0 then .ok (.str [], input)
  else if size < 0 then .error .oob
  else (readN size.toNat input).map fun (bs, r) => (.str bs, r)

/-- Modelled from the spec: `sliceInterfaceToString` (not under `src/`),
which converts a decoded `[]interface{}` of labels to `[]string`, failing on
a non-string element. -/
def sliceToStrings : List Val → Except DErr (List (List Nat))
  | [] => .ok []
  | .str s :: rest => (sliceToStrings rest).map (s :: ·)
  | _ :: _ => .error .fail

/-- Modelled from the spec: `sliceInterfaceToInt` (not under `src/`), which
converts a decoded `[]interface{}` to integers, failing otherwise. -/
def sliceToInts : List Val → Except DErr (List Int)
  | [] => .ok []
  | .int i :: rest => (sliceToInts rest).map (i :: ·)
  | _ :: _ => .error .fail

/-- Modelled from the spec: `sliceInterfaceToNode` (not under `src/`): every
element of a path's node list must be a decoded `Node`. -/
def allNodes : List Val → Bool
  | [] => true
  | .struct 0x4E _ :: rest => allNodes rest
  | _ :: _ => false

/-- Modelled from the spec: `sliceInterfaceToUnboundRelationship`
(not under `src/`). -/
def allUnbound : List Val → Bool
  | [] => true
  | .struct 0x72 _ :: rest => allUnbound rest
  | _ :: _ => false

mutual

/-- Go `Decoder.decode`: read the marker byte, `adjust` it, and dispatch.
The `default` arm of the Go switch (tiny ints and unknown markers) is the
final wildcard. -/
def decodeF : Nat → List Nat → Except DErr (Val × List Nat)
  | 0, _ => .error .fail
  | fuel + 1, input => do
    let (marker, r) ← readByte input
    match adjust marker with
    | 0xC0 => pure (Val.null, r)
    | 0xC3 => pure (Val.bool true, r)
    | 0xC2 => pure (Val.bool false, r)
    | 0xC8 => do
      let (bs, r') ← readN 1 r
      pure (Val.int (fromBEsigned 1 bs), r')
    | 0xC9 => do
      let (bs, r') ← readN 2 r
      pure (Val.int (fromBEsigned 2 bs), r')
    | 0xCA => do
      let (bs, r') ← readN 4 r
      pure (Val.int (fromBEsigned 4 bs), r')
    | 0xCB => do
      let (bs, r') ← readN 8 r
      pure (Val.int (fromBEsigned 8 bs), r')
    | 0xC1 => do
      let (bs, r') ← readN 8 r
      pure (Val.float (fromBE bs), r')
    | 0x80 => decodeStringF ((marker : Int) - 0x80) r
    | 0xD0 => do
      let (bs, r') ← readN 1 r
      decodeStringF (fromBEsigned 1 bs) r'
    | 0xD1 => do
      let (bs, r') ← readN 2 r
      decodeStringF (fromBEsigned 2 bs) r'
    | 0xD2 => do
      let (bs, r') ← readN 4 r
      decodeStringF (fromBEsigned 4 bs) r'
    | 0x90 => decodeSliceF fuel ((marker : Int) - 0x90) r
    | 0xD4 => do
      let (bs, r') ← readN 1 r
      decodeSliceF fuel (fromBEsigned 1 bs) r'
    | 0xD5 => do
      let (bs, r') ← readN 2 r
      decodeSliceF fuel (fromBEsigned 2 bs) r'
    | 0xD6 => do
      let (bs, r') ← readN 4 r
      decodeSliceF fuel (fromBEsigned 4 bs) r'
    | 0xA0 => decodeMapF fuel ((marker : Int) - 0xA0) r
    | 0xD8 => do
      let (bs, r') ← readN 1 r
      decodeMapF fuel (fromBEsigned 1 bs) r'
    | 0xD9 => do
      let (bs, r') ← readN 2 r
      decodeMapF fuel (fromBEsigned 2 bs) r'
    | 0xDA => do
      let (bs, r') ← readN 4 r
      decodeMapF fuel (fromBEsigned 4 bs) r'
    | 0xB0 => decodeStructF fuel r
    | 0xDC => do
      let (_, r') ← readN 1 r
      decodeStructF fuel r'
    | 0xDD => do
      let (_, r') ← readN 2 r
      decodeStructF fuel r'
    | _ =>
      let m : Int := if marker < 128 then (marker : Int) else (marker : Int) - 256
      if -16 ≤ m ∧ m ≤ 127 then pure (Val.int m, r) else .error .fail

/-- Go `Decoder.decodeSlice`: `make([]interface{}, size)` panics on a
negative count, then each element is decoded in turn. -/
def decodeSliceF : Nat → Int → List Nat → Except DErr (Val × List Nat)
  | 0, _, _ => .error .fail
  | fuel + 1, size, input =>
    if size < 0 then .error .oob
    else (decodeItemsF fuel size.toNat input).map fun (vs, r) => (Val.list vs, r)

/-- The element loop of `Decoder.decodeSlice`. -/
def decodeItemsF : Nat → Nat → List Nat → Except DErr (List Val × List Nat)
  | 0, _, _ => .error .fail
  | _ + 1, 0, input => .ok ([], input)
  | fuel + 1, k + 1, input => do
    let (v, r1) ← decodeF fuel input
    let (vs, r2) ← decodeItemsF fuel k r1
    pure (v :: vs, r2)

/-- Go `Decoder.decodeMap`: a negative entry count panics in `make`; keys
must decode to strings (`kv.(string)` ok-checked), else an error. -/
def decodeMapF : Nat → Int → List Nat → Except DErr (Val × List Nat)
  | 0, _, _ => .error .fail
  | fuel + 1, size, input =>
    if size < 0 then .error .oob
    else (decodePairsF fuel size.toNat input).map fun (kvs, r) => (Val.map kvs, r)

/-- The key/value loop of `Decoder.decodeMap`. -/
def decodePairsF : Nat → Nat → List Nat → Except DErr (List (List Nat × Val) × List Nat)
  | 0, _, _ => .error .fail
  | _ + 1, 0, input => .ok ([], input)
  | fuel + 1, k + 1, input => do
    let (kv, r1) ← decodeF fuel input
    match kv with
    | .str ks => do
      let (v, r2) ← decodeF fuel r1
      let (rest, r3) ← decodePairsF fuel k r2
      pure ((ks, v) :: rest, r3)
    | _ => .error .fail

/-- Go `Decoder.decodeStruct`: read the signature byte and dispatch to the
registered graph or message type; unknown signatures (including `INIT` and
`RUN`, which are encodable but not registered here) are fatal. -/
def decodeStructF : Nat → List Nat → Except DErr (Val × List Nat)
  | 0, _ => .error .fail
  | fuel + 1, input => do
    let (sig, r) ← readByte input
    match sig with
    | 0x4E => decodeNodeF fuel r
    | 0x52 => decodeRelationshipF fuel r
    | 0x50 => decodePathF fuel r
    | 0x72 => decodeUnboundF fuel r
    | 0x71 => decodeRecordF fuel r
    | 0x7F => decodeFailureF fuel r
    | 0x7E => pure (Val.struct 0x7E [], r)
    | 0x70 => decodeSuccessF fuel r
    | 0x0E => pure (Val.struct 0x0E [], r)
    | 0x2F => pure (Val.struct 0x2F [], r)
    | 0x3F => pure (Val.struct 0x3F [], r)
    | 0x0F => pure (Val.struct 0x0F [], r)
    | _ => .error .fail

/-- Go `Decoder.decodeNode`: identity (ok-checked int64), labels (a list of
strings via `sliceInterfaceToString`), properties (ok-checked map). -/
def decodeNodeF : Nat → List Nat → Except DErr (Val × List Nat)
  | 0, _ => .error .fail
  | fuel + 1, input => do
    let (idv, r1) ← decodeF fuel input
    match idv with
    | .int id => do
      let (lv, r2) ← decodeF fuel r1
      match lv with
      | .list ls => do
        let _ ← sliceToStrings ls
        let (pv, r3) ← decodeF fuel r2
        match pv with
        | .map kvs => pure (Val.struct 0x4E [.int id, .list ls, .map kvs], r3)
        | _ => .error .fail
      | _ => .error .fail
    | _ => .error .fail

/-- Go `Decoder.decodeRelationship`: the three identities use unchecked type
assertions (a mismatch panics), the type and properties are ok-checked. -/
def decodeRelationshipF : Nat → List Nat → Except DErr (Val × List Nat)
  | 0, _ => .error .fail
  | fuel + 1, input => do
    let (v1, r1) ← decodeF fuel input
    match v1 with
    | .int a => do
      let (v2, r2) ← decodeF fuel r1
      match v2 with
      | .int b => do
        let (v3, r3) ← decodeF fuel r2
        match v3 with
        | .int c => do
          let (v4, r4) ← decodeF fuel r3
          match v4 with
          | .str ty => do
            let (v5, r5) ← decodeF fuel r4
            match v5 with
            | .map kvs =>
              pure (Val.struct 0x52 [.int a, .int b, .int c, .str ty, .map kvs], r5)
            | _ => .error .fail
          | _ => .error .fail
        | _ => .error .oob
      | _ => .error .oob
    | _ => .error .oob

/-- Go `Decoder.decodePath`: three decoded lists — nodes, unbound
relationships and an int sequence — each converted by the respective
`sliceInterfaceTo*` helper. -/
def decodePathF : Nat → List Nat → Except DErr (Val × List Nat)
  | 0, _ => .error .fail
  | fuel + 1, input => do
    let (nv, r1) ← decodeF fuel input
    match nv with
    | .list ns =>
      if allNodes ns then do
        let (rv, r2) ← decodeF fuel r1
        match rv with
        | .list rs =>
          if allUnbound rs then do
            let (sv, r3) ← decodeF fuel r2
            match sv with
            | .list seq => do
              let _ ← sliceToInts seq
              pure (Val.struct 0x50 [.list ns, .list rs, .list seq], r3)
            | _ => .error .fail
          else .error .fail
        | _ => .error .fail
      else .error .fail
    | _ => .error .fail

/-- Go `Decoder.decodeUnboundRelationship`. -/
def decodeUnboundF : Nat → List Nat → Except DErr (Val × List Nat)
  | 0, _ => .error .fail
  | fuel + 1, input => do
    let (v1, r1) ← decodeF fuel input
    match v1 with
    | .int a => do
      let (v2, r2) ← decodeF fuel r1
      match v2 with
      | .str ty => do
        let (v3, r3) ← decodeF fuel r2
        match v3 with
        | .map kvs => pure (Val.struct 0x72 [.int a, .str ty, .map kvs], r3)
        | _ => .error .fail
      | _ => .error .fail
    | _ => .error .fail

/-- Go `Decoder.decodeRecordMessage`: decodes ONE value and requires it to be
a list, which becomes `Record.Values` (and hence the struct's fields). -/
def decodeRecordF : Nat → List Nat → Except DErr (Val × List Nat)
  | 0, _ => .error .fail
  | fuel + 1, input => do
    let (v, r) ← decodeF fuel input
    match v with
    | .list vals => pure (Val.struct 0x71 vals, r)
    | _ => .error .fail

/-- Go `Decoder.decodeFailureMessage`. -/
def decodeFailureF : Nat → List Nat → Except DErr (Val × List Nat)
  | 0, _ => .error .fail
  | fuel + 1, input => do
    let (v, r) ← decodeF fuel input
    match v with
    | .map md => pure (Val.struct 0x7F [.map md], r)
    | _ => .error .fail

/-- Go `Decoder.decodeSuccessMessage`. -/
def decodeSuccessF : Nat → List Nat → Except DErr (Val × List Nat)
  | 0, _ => .error .fail
  | fuel + 1, input => do
    let (v, r) ← decodeF fuel input
    match v with
    | .map md => pure (Val.struct 0x70 [.map md], r)
    | _ => .error .fail

end

/-! ## Metadata values and the summary counters (`summary.go`)

Decoded server metadata is a Go `map[string]interface{}`; at this layer keys
are Go strings and values the interface universe the summary parser inspects
(`int64`, `string`, nested maps and lists, anything else). -/

inductive MVal where
  | int (i : Int)
  | str (s : String)
  | map (kvs : List (String × MVal))
  | list (xs : List MVal)
  | other

/-- Server metadata: a string-keyed map in iteration order. -/
abbrev Md := List (String × MVal)

/-- Go map indexing `md[s]`: the first binding of the key, if any. -/
def mdLookup (md : Md) (s : String) : Option MVal :=
  (md.find? fun p => p.1 == s).map (·.2)

/-- The query counters of `summary.go`. -/
structure Counters where
  NodesCreated : Int
  NodesDeleted : Int
  RelationshipsCreated : Int
  RelationshipsDeleted : Int
  PropertiesSet : Int
  LabelsAdded : Int
  LabelsRemoved : Int
  IndicesAdded : Int
  IndicesRemoved : Int
  ConstraintsAdded : Int
  ConstraintsRemoved : Int
  deriving Repr, DecidableEq

/-- The `statsFor` closure inside `Counters.parse`: `v, _ := md[s].(int64)`
— the value when present and an int64, zero otherwise. -/
def statsFor (md : Md) (s : String) : Int :=
  match mdLookup md s with
  | some (.int v) => v
  | _ => 0

/-- Go `Counters.parse`, key for key as the source spells them — including
the misspelt `"donstraints-removed"` read for `ConstraintsRemoved`. -/
def Counters.parse (md : Md) : Counters where
  NodesCreated := statsFor md "nodes-created"
  NodesDeleted := statsFor md "nodes-deleted"
  RelationshipsCreated := statsFor md "relationships-created"
  RelationshipsDeleted := statsFor md "relationships-deleted"
  PropertiesSet := statsFor md "properties-set"
  LabelsAdded := statsFor md "labels-added"
  LabelsRemoved := statsFor md "labels-removed"
  IndicesAdded := statsFor md "indices-added"
  IndicesRemoved := statsFor md "indices-removed"
  ConstraintsAdded := statsFor md "constraints-added"
  ConstraintsRemoved := statsFor md "donstraints-removed"

/-- Go `Counters.RowsAffected`. -/
def RowsAffected (c : Counters) : Int :=
  c.NodesCreated + c.NodesDeleted + c.RelationshipsCreated + c.RelationshipsDeleted

/-- The zero-valued `Counters` of a fresh `Summary`. -/
def countersZero : Counters :=
  ⟨0, 0, 0, 0, 0, 0, 0, 0, 0, 0, 0⟩

/-- The counters part of `Summary.parseSuccess`: counters are replaced only
when the metadata carries a `"stats"` map. -/
def parseSuccessCounters (cs : Counters) (md : Md) : Counters :=
  match mdLookup md "stats" with
  | some (.map stats) => Counters.parse stats
  | _ => cs

/-- The element loop of Go `parseCols`: every column must be a string,
otherwise the whole result is nil. -/
def colStrings : List MVal → Option (List String)
  | [] => some []
  | .str s :: rest => (colStrings rest).map (s :: ·)
  | _ :: _ => none

/-- Go `parseCols`: the `"fields"` metadata entry as a string list. -/
def parseCols (md : Md) : List String :=
  match mdLookup md "fields" with
  | some (.list xs) => (colStrings xs).getD []
  | _ => []

/-! ## The connection state machine (`conn.go`) -/

/-- Go `status`. -/
inductive Status where
  | idle
  | inTx
  | inBadTx
  deriving Repr, DecidableEq

/-- Whether the status counts as inside a transaction, as tested by
`c.status == statusInTx || c.status == statusInBadTx`. -/
def Status.isTx : Status → Bool
  | .idle => false
  | .inTx => true
  | .inBadTx => true

/-- The driver errors the embedded operations can surface. -/
inductive Err where
  | badConn
  | eof
  | codec
  | unrecognized
  | txStatus
  | inFailedTx
  | resetFailed
  | stmtClosed
  | handshake
  deriving Repr, DecidableEq

/-- The session messages the connection encodes (`structures/messages`);
`run` carries the statement text. -/
inductive Msg where
  | initMsg
  | run (q : String)
  | pullAll
  | discardAll
  | ackFailure
  | reset
  deriving Repr, DecidableEq

/-- The responses the decoder can deliver. -/
inductive Resp where
  | success (md : Md)
  | failure (md : Md)
  | record (vals : List MVal)
  | ignored

/-- State of the connection's `encoding.Decoder`: the scripted stream of
decode results (`.error ()` is a codec/framing failure) and the sticky
`lastErr`. -/
structure DecSt where
  script : List (Except Unit Resp)
  lastErr : Bool

/-- Go `Decoder.Decode`: return the stored error if there is one; otherwise
the next result, remembering any failure in `lastErr` (an exhausted stream is
a read error, also stored). -/
def decDecode (d : DecSt) : Except Err Resp × DecSt :=
  if d.lastErr then (.error .codec, d)
  else
    match d.script with
    | [] => (.error .codec, { d with lastErr := true })
    | .error _ :: rest => (.error .codec, { script := rest, lastErr := true })
    | .ok r :: rest => (.ok r, { d with script := rest })

/-- The connection: messages encoded so far, decoder state, transaction
status, and the `bad` poison flag. -/
structure Conn where
  sent : List Msg
  dec : DecSt
  status : Status
  bad : Bool

/-- Go `conn.encode`: append the bolt-encoded message to the stream. -/
def connEncode (c : Conn) (m : Msg) : Conn :=
  { c with sent := c.sent ++ [m] }

/-- Go `conn.decode`: `io.EOF` once the decoder reports no more usable data
(`More()` is `lastErr == nil`), else `Decoder.Decode`. -/
def connDecode (c : Conn) : Except Err Resp × Conn :=
  if c.dec.lastErr then (.error .eof, c)
  else
    let (r, d') := decDecode c.dec
    (r, { c with dec := d' })

/-- Go `conn.Close`: an error on a bad connection; otherwise reset the status
and mark the connection bad (the socket close succeeded). -/
def connClose (c : Conn) : Except Err Unit × Conn :=
  if c.bad then (.error .badConn, c)
  else (.ok (), { c with status := .idle, bad := true })

/-- The drain loop of Go `conn.reset`. -/
def resetLoop : Nat → Conn → Except Err Unit × Conn
  | 0, c => (.error .codec, c)
  | fuel + 1, c =>
    match connDecode c with
    | (.error e, c') => (.error e, c')
    | (.ok .ignored, c') => resetLoop fuel c'
    | (.ok (.success _), c') => (.ok (), c')
    | (.ok (.failure _), c') => (.error .resetFailed, c')
    | (.ok (.record _), c') =>
      let (_, c'') := connClose c'
      (.error .unrecognized, c'')

/-- Go `conn.reset`: encode `RESET` and drain. -/
def connReset (fuel : Nat) (c : Conn) : Except Err Unit × Conn :=
  resetLoop fuel (connEncode c .reset)

/-- The drain loop of Go `conn.ackFailure`; a second `FAILURE` escalates to
`RESET`. -/
def ackLoop : Nat → Conn → Except Err Unit × Conn
  | 0, c => (.error .codec, c)
  | fuel + 1, c =>
    match connDecode c with
    | (.error e, c') => (.error e, c')
    | (.ok .ignored, c') => ackLoop fuel c'
    | (.ok (.success _), c') => (.ok (), c')
    | (.ok (.failure _), c') => connReset fuel c'
    | (.ok (.record _), c') =>
      let (_, c'') := connClose c'
      (.error .unrecognized, c'')

/-- Go `conn.ackFailure`: encode `ACK_FAILURE` and drain. -/
def connAckFailure (fuel : Nat) (c : Conn) : Except Err Unit × Conn :=
  ackLoop fuel (connEncode c .ackFailure)

/-- Go `conn.consume`: one response; a `FAILURE` is acknowledged and then
returned as a value. -/
def consume (fuel : Nat) (c : Conn) : Except Err Resp × Conn :=
  match connDecode c with
  | (.error e, c') => (.error e, c')
  | (.ok (.failure md), c') =>
    match connAckFailure fuel c' with
    | (.ok _, c'') => (.ok (.failure md), c'')
    | (.error e, c'') => (.error e, c'')
  | (.ok r, c') => (.ok r, c')

/-- Go `conn.consumeAll`: consume until a `SUCCESS`, collecting the
intermediate responses; returns them with the success metadata. -/
def consumeAll : Nat → Conn → Except Err (List Resp × Md) × Conn
  | 0, c => (.error .codec, c)
  | fuel + 1, c =>
    match consume fuel c with
    | (.error e, c') => (.error e, c')
    | (.ok (.success md), c') => (.ok ([], md), c')
    | (.ok r, c') =>
      match consumeAll fuel c' with
      | (.ok (rs, md), c'') => (.ok (r :: rs, md), c'')
      | (.error e, c'') => (.error e, c'')

/-- Go `txQuery` literals. -/
inductive TxQ where
  | begin
  | commit
  | rollback
  deriving Repr, DecidableEq

/-- The literal statement text of a transaction query. -/
def txStr : TxQ → String
  | .begin => "BEGIN"
  | .commit => "COMMIT"
  | .rollback => "ROLLBACK"

/-- Go `conn.transac`: send `RUN`+`PULL_ALL` for the keyword, consume the two
responses; a non-`SUCCESS` on the run is an error, a non-`SUCCESS` on the
pull additionally moves the status to `in_bad_tx`. -/
def transac (fuel : Nat) (c : Conn) (q : TxQ) : Except Err Unit × Conn :=
  let c1 := connEncode (connEncode c (.run (txStr q))) .pullAll
  match consume fuel c1 with
  | (.error e, c2) => (.error e, c2)
  | (.ok runResp, c2) =>
    match consume fuel c2 with
    | (.error e, c3) => (.error e, c3)
    | (.ok pullResp, c3) =>
      match runResp with
      | .success _ =>
        match pullResp with
        | .success _ => (.ok (), c3)
        | _ => (.error .unrecognized, { c3 with status := .inBadTx })
      | _ => (.error .unrecognized, c3)

/-- Go `conn.checktx`: a status/membership mismatch poisons the connection. -/
def checktx (c : Conn) (intx : Bool) : Except Err Unit × Conn :=
  if c.status.isTx ≠ intx then (.error .txStatus, { c with bad := true })
  else (.ok (), c)

/-- Go `conn.begin`: guard, `checktx(false)`, `transac(begin)`, then the
status becomes `in_tx`. -/
def connBegin (fuel : Nat) (c : Conn) : Except Err Unit × Conn :=
  if c.bad then (.error .badConn, c)
  else
    match checktx c false with
    | (.error e, c') => (.error e, c')
    | (.ok _, c') =>
      match transac fuel c' .begin with
      | (.error e, c'') => (.error e, c'')
      | (.ok _, c'') => (.ok (), { c'' with status := .inTx })

/-- Go `conn.Rollback`: guard, `checktx(true)`, `transac(rollback)`, then the
status returns to `idle`. -/
def connRollback (fuel : Nat) (c : Conn) : Except Err Unit × Conn :=
  if c.bad then (.error .badConn, c)
  else
    match checktx c true with
    | (.error e, c') => (.error e, c')
    | (.ok _, c') =>
      match transac fuel c' .rollback with
      | (.error e, c'') => (.error e, c'')
      | (.ok _, c'') => (.ok (), { c'' with status := .idle })

/-- Go `conn.Commit`: guard, `checktx(true)`; in a bad transaction it rolls
back and reports `ErrInFailedTransaction`; otherwise `transac(commit)` —
note the status is not reset on success. -/
def connCommit (fuel : Nat) (c : Conn) : Except Err Unit × Conn :=
  if c.bad then (.error .badConn, c)
  else
    match checktx c true with
    | (.error e, c') => (.error e, c')
    | (.ok _, c') =>
      if c'.status = .inBadTx then
        match connRollback fuel c' with
        | (.error e, c'') => (.error e, c'')
        | (.ok _, c'') => (.error .inFailedTx, c'')
      else transac fuel c' .commit

/-! ## Statements (`stmt.go`) -/

/-- Go `stmt`. -/
structure Stmt where
  conn : Conn
  query : String
  closed : Bool

/-- Go `stmt.exec`: `s.pull` sends `RUN` + `PULL_ALL` (not `DISCARD_ALL`) and
consumes the run header; the remaining responses are drained by
`consumeAll`; the terminal metadata's counters become the rows-affected
result. The header metadata is parsed into the same summary first, as
`s.pull` does. -/
def stmtExec (fuel : Nat) (s : Stmt) : Except Err Int × Conn :=
  if s.closed then (.error .stmtClosed, s.conn)
  else
    let c1 := connEncode (connEncode s.conn (.run s.query)) .pullAll
    match consume fuel c1 with
    | (.error e, c2) => (.error e, c2)
    | (.ok (.success hdr), c2) =>
      let cs1 := parseSuccessCounters countersZero hdr
      match consumeAll fuel c2 with
      | (.error e, c3) => (.error e, c3)
      | (.ok (_, md), c3) =>
        let cs2 := parseSuccessCounters cs1 md
        (.ok (RowsAffected cs2), c3)
    | (.ok _, c2) => (.error .unrecognized, c2)

/-- Go `conn.query` / `stmt.runquery` down to the column extraction: guard on
`bad`, send `RUN` + `PULL_ALL`, consume the run header, surface its
`"fields"` as the columns. -/
def connQuery (fuel : Nat) (c : Conn) (q : String) : Except Err (List String) × Conn :=
  if c.bad then (.error .badConn, c)
  else
    let c1 := connEncode (connEncode c (.run q)) .pullAll
    match consume fuel c1 with
    | (.error e, c2) => (.error e, c2)
    | (.ok (.success hdr), c2) => (.ok (parseCols hdr), c2)
    | (.ok _, c2) => (.error .unrecognized, c2)

/-! ## The version handshake (`driver.go`, `conn.handshake`) -/

/-- The 20-byte preamble of `driver.go`: the magic plus four version words
(only version 1 proposed). -/
def handshakeBytes : List Nat :=
  [0x60, 0x60, 0xB0, 0x17,
   0x00, 0x00, 0x00, 0x01,
   0x00, 0x00, 0x00, 0x00,
   0x00, 0x00, 0x00, 0x00,
   0x00, 0x00, 0x00, 0x00]

/-- Go `noSupportedVersions`. -/
def noSupportedVersions : List Nat := [0, 0, 0, 0]

/-- Go `version1_0`, the only proposed version. -/
def version1 : List Nat := [0, 0, 0, 1]

/-- Go `conn.handshake` after the preamble write: read the server's 4-byte
selection and reject only the all-zero answer. -/
def handshakeCheck (vers : List Nat) : Except Err Unit :=
  if vers = noSupportedVersions then .error .handshake else .ok ()

/-! ## `MaybeMap` (package `encoding`) -/

/-- The chunk-walking loop of Go `MaybeMap`. `none` models the out-of-range
slice panic in `m = m[length+clen:]`, which the `clen > len(m)` guard does
not prevent when `len(m) − 2 < clen ≤ len(m)`. -/
def mmLoop : Nat → List Nat → Option Bool
  | 0, _ => none
  | fuel + 1, m =>
    let clen := match m with
      | a :: b :: _ => a * 256 + b
      | _ => 0
    if m.length < clen then some false
    else if m.length < 2 + clen then none
    else
      let m' := m.drop (2 + clen)
      if m'.length ≤ 2 then
        if m'.length = 2 then some (m' == [0, 0]) else some false
      else mmLoop fuel m'

/-- Go `MaybeMap`: room for a length, marker and terminator; a map marker at
offset 2; then the chunk walk. -/
def MaybeMap (m : List Nat) : Option Bool :=
  if m.length < 5 then some false
  else
    match m[2]? with
    | none => some false
    | some b =>
      match adjust b with
      | 0xA0 | 0xD8 | 0xD9 | 0xDA => mmLoop m.length m
      | _ => some false

end Bolt

namespace Bolt

/-- C2: the claim as stated is false — the encoder does not emit the tiny
one-byte encoding at the boundary value 127; because `encodeInt` compares
with strict `<` against `math.MaxInt8`, it emits an Int16 marker there. -/
theorem encodeInt_at_127_is_int16_not_tiny :
    encodeInt 127 = some [0xC9, 0x00, 0x7F] ∧
      encodeInt 127 ≠ some [0x7F] := by
  constructor
  · decide
  · decide

set_option maxHeartbeats 2000000 in
/-- C2 (amended): the encoder width policy actually implemented by
`Encoder.encodeInt`: tiny covers −16 ≤ v ≤ 126 only; each positive boundary
(127, 2^15−1, 2^31−1) is pushed to the next wider width, while the negative
boundaries (−128, −2^15, −2^31) receive the width the spec prescribes. -/
theorem encodeInt_width_policy (v : Int) :
    ((-16 ≤ v ∧ v ≤ 126) → encodeInt v = some (toBE 1 v)) ∧
    ((-128 ≤ v ∧ v ≤ -17) → encodeInt v = some (Int8 :: toBE 1 v)) ∧
    (((-32768 ≤ v ∧ v ≤ -129) ∨ (127 ≤ v ∧ v ≤ 32766)) →
      encodeInt v = some (Int16 :: toBE 2 v)) ∧
    (((-2147483648 ≤ v ∧ v ≤ -32769) ∨ (32767 ≤ v ∧ v ≤ 2147483646)) →
      encodeInt v = some (Int32 :: toBE 4 v)) ∧
    (((-9223372036854775808 ≤ v ∧ v ≤ -2147483649) ∨
        (2147483647 ≤ v ∧ v ≤ 9223372036854775807)) →
      encodeInt v = some (Int64 :: toBE 8 v)) := by
  refine ⟨fun h => ?_, fun h => ?_, fun h => ?_, fun h => ?_, fun h => ?_⟩ <;>
    (unfold encodeInt; split_ifs <;> first | omega | rfl)

/-- C2 (amended) witness: the policy evaluated at the boundary 127, which the
original claim assigned to tiny and the code assigns to Int16. -/
theorem encodeInt_width_policy_witness :
    encodeInt 127 = some (Int16 :: toBE 2 127) :=
  (encodeInt_width_policy 127).2.2.1 (Or.inr (by constructor <;> decide))

/-- Unfolding lemma: a short payload has no full chunk. -/
theorem fullChunks_small (s : Nat) (l : List Nat) (h : l.length < s + 1) :
    fullChunks s l = [] := by
  rw [fullChunks]; rw [if_pos h]

/-- Unfolding lemma: a long payload starts with one full chunk. -/
theorem fullChunks_big (s : Nat) (l : List Nat) (h : ¬ l.length < s + 1) :
    fullChunks s l = l.take (s + 1) :: fullChunks s (l.drop (s + 1)) := by
  rw [fullChunks]; rw [if_neg h]

/-- Unfolding lemma: a short payload is its own remainder. -/
theorem remChunk_small (s : Nat) (l : List Nat) (h : l.length < s + 1) :
    remChunk s l = l := by
  rw [remChunk, if_pos h]

/-- Unfolding lemma: the remainder skips a full chunk. -/
theorem remChunk_big (s : Nat) (l : List Nat) (h : ¬ l.length < s + 1) :
    remChunk s l = remChunk s (l.drop (s + 1)) := by
  rw [remChunk]; rw [if_neg h]

/-- The trailing partial chunk is shorter than the chunk size. -/
theorem remChunk_len (s : Nat) (l : List Nat) : (remChunk s l).length < s + 1 := by
  induction l using remChunk.induct s with
  | case1 l h => rw [remChunk_small s l h]; exact h
  | case2 l h ih => rw [remChunk_big s l h]; exact ih

/-- Concatenation distributes over appending chunk lists. -/
theorem flat_append (a b : List (List Nat)) : flat (a ++ b) = flat a ++ flat b := by
  induction a with
  | nil => rfl
  | cons x xs ih =>
    show x ++ flat (xs ++ b) = x ++ flat xs ++ flat b
    rw [ih, List.append_assoc]

/-- Full chunks followed by the remainder reassemble the payload. -/
theorem flat_fullChunks_rem (s : Nat) (l : List Nat) :
    flat (fullChunks s l) ++ remChunk s l = l := by
  induction l using remChunk.induct s with
  | case1 l h => rw [remChunk_small s l h, fullChunks_small s l h]; rfl
  | case2 l h ih =>
    rw [remChunk_big s l h, fullChunks_big s l h]
    show l.take (s + 1) ++ flat (fullChunks s (l.drop (s + 1))) ++ _ = l
    rw [List.append_assoc, ih, List.take_append_drop]

/-- Every full chunk has exactly the chunk size. -/
theorem mem_fullChunks_len (s : Nat) (l c : List Nat) (hc : c ∈ fullChunks s l) :
    c.length = s + 1 := by
  induction l using remChunk.induct s with
  | case1 l h => rw [fullChunks_small s l h] at hc; cases hc
  | case2 l h ih =>
    rw [fullChunks_big s l h] at hc
    rcases List.mem_cons.mp hc with hc | hc
    · subst hc; rw [List.length_take]; omega
    · exact ih hc

/-- Rendering distributes over chunk-list concatenation. -/
theorem renderChunks_append (a b : List (List Nat)) :
    renderChunks (a ++ b) = renderChunks a ++ renderChunks b := by
  unfold renderChunks
  rw [List.map_append, flat_append]

/-- Rendering a cons. -/
theorem renderChunks_cons (c : List Nat) (cs : List (List Nat)) :
    renderChunks (c :: cs) = be16 c.length ++ c ++ renderChunks cs := by
  show (be16 c.length ++ c) ++ flat (cs.map fun d => be16 d.length ++ d) = _
  rw [List.append_assoc]; rfl

/-- Decomposition of the chunking of a concatenation: the full chunks of
`h ++ t` are those of `h` followed by those of `h`'s remainder glued to `t`,
and the remainders agree likewise. -/
theorem chunks_decomp (s : Nat) (h t : List Nat) :
    fullChunks s (h ++ t) = fullChunks s h ++ fullChunks s (remChunk s h ++ t) ∧
      remChunk s (h ++ t) = remChunk s (remChunk s h ++ t) := by
  induction h using remChunk.induct s with
  | case1 h hlt =>
    rw [remChunk_small s h hlt, fullChunks_small s h hlt, List.nil_append]
    exact ⟨rfl, rfl⟩
  | case2 h hlt ih =>
    have hlen : ¬ (h ++ t).length < s + 1 := by
      rw [List.length_append]; omega
    have htake : (h ++ t).take (s + 1) = h.take (s + 1) := by
      rw [List.take_append_eq_append_take]
      have h0 : s + 1 - h.length = 0 := by omega
      rw [h0, List.take_zero, List.append_nil]
    have hdrop : (h ++ t).drop (s + 1) = h.drop (s + 1) ++ t := by
      rw [List.drop_append_eq_append_drop]
      have h0 : s + 1 - h.length = 0 := by omega
      rw [h0, List.drop_zero]
    constructor
    · rw [fullChunks_big s (h ++ t) hlen, fullChunks_big s h hlt, htake, hdrop,
        remChunk_big s h hlt, List.cons_append, ih.1]
    · rw [remChunk_big s (h ++ t) hlen, hdrop, remChunk_big s h hlt, ih.2]

/-- Behaviour of one `chunkWriter.Write` call in the one regime where the
configured size equals the backing capacity (the `NewEncoder` default,
65535): starting from a partially filled buffer, the bytes emitted are
exactly the renderings of the full chunks of buffer-plus-payload, and the
new buffer is the remainder. -/
theorem chunkWriteLoop_spec (s : Nat) (fuel : Nat) :
    ∀ (w : CW) (p : List Nat), w.size = s + 1 → w.buf.length < s + 1 →
      p.length < fuel →
      chunkWriteLoop (s + 1) fuel w p =
        ⟨remChunk s (w.buf ++ p), w.size,
          w.out ++ renderChunks (fullChunks s (w.buf ++ p))⟩ := by
  induction fuel with
  | zero => intro w p _ _ hf; omega
  | succ n ih =>
    intro w p hsz hb hf
    unfold chunkWriteLoop
    by_cases hp : p = []
    · subst hp
      rw [if_pos rfl, List.append_nil, remChunk_small s w.buf hb,
        fullChunks_small s w.buf hb]
      show w = ⟨w.buf, w.size, w.out ++ renderChunks []⟩
      rw [show renderChunks [] = [] from rfl, List.append_nil]
    · rw [if_neg hp]
      dsimp only
      by_cases hfill : s + 1 - w.buf.length ≤ p.length
      · have hm : min (s + 1 - w.buf.length) p.length = s + 1 - w.buf.length := by
          omega
        rw [hm]
        have hlen' : (w.buf ++ p.take (s + 1 - w.buf.length)).length = s + 1 := by
          rw [List.length_append, List.length_take]; omega
        rw [if_pos (hlen'.trans hsz.symm)]
        have hwc : writeChunk ⟨w.buf ++ p.take (s + 1 - w.buf.length), w.size, w.out⟩ =
            ⟨[], w.size, w.out ++ be16 (s + 1) ++ (w.buf ++ p.take (s + 1 - w.buf.length))⟩ := by
          unfold writeChunk
          rw [if_neg (by rw [hlen']; omega)]
          dsimp only
          rw [hlen']
        rw [hwc]
        rw [ih ⟨[], w.size, w.out ++ be16 (s + 1) ++
              (w.buf ++ p.take (s + 1 - w.buf.length))⟩
            (p.drop (s + 1 - w.buf.length)) hsz (by simp)
            (by rw [List.length_drop]; omega)]
        have hlong : ¬ (w.buf ++ p).length < s + 1 := by
          rw [List.length_append]; omega
        have htake : (w.buf ++ p).take (s + 1) = w.buf ++ p.take (s + 1 - w.buf.length) := by
          rw [List.take_append_eq_append_take, List.take_of_length_le (by omega)]
        have hdrop : (w.buf ++ p).drop (s + 1) = p.drop (s + 1 - w.buf.length) := by
          rw [List.drop_append_eq_append_drop, List.drop_eq_nil_of_le (by omega),
            List.nil_append]
        rw [fullChunks_big s _ hlong, remChunk_big s _ hlong, htake, hdrop,
          renderChunks_cons, hlen']
        simp only [CW.mk.injEq, List.nil_append, List.append_assoc, and_self_iff,
          and_true, true_and]
      · have hm : min (s + 1 - w.buf.length) p.length = p.length := by
          omega
        rw [hm, List.take_length, List.drop_length]
        have hne : (w.buf ++ p).length ≠ w.size := by
          rw [List.length_append, hsz]; omega
        rw [if_neg hne]
        rw [ih ⟨w.buf ++ p, w.size, w.out⟩ [] hsz
            (by rw [List.length_append]; omega)
            (by have hplen := List.length_pos.mpr hp
                simp only [List.length_nil]; omega)]
        rw [List.append_nil]

/-- Running a sequence of `Write` calls from a clean writer fills the output
with the rendered full chunks and leaves the remainder buffered. -/
theorem cwFold_spec (s : Nat) (ws : List (List Nat)) :
    ∀ (w : CW), w.size = s + 1 → w.buf.length < s + 1 →
      ws.foldl (chunkWrite (s + 1)) w =
        ⟨remChunk s (w.buf ++ flat ws), w.size,
          w.out ++ renderChunks (fullChunks s (w.buf ++ flat ws))⟩ := by
  induction ws with
  | nil =>
    intro w hsz hb
    rw [List.foldl_nil, show flat [] = [] from rfl, List.append_nil,
      remChunk_small s w.buf hb, fullChunks_small s w.buf hb]
    show w = ⟨w.buf, w.size, w.out ++ renderChunks []⟩
    rw [show renderChunks [] = [] from rfl, List.append_nil]
  | cons p rest ih =>
    intro w hsz hb
    rw [List.foldl_cons,
      show chunkWrite (s + 1) w p = chunkWriteLoop (s + 1) (p.length + 1) w p from rfl,
      chunkWriteLoop_spec s (p.length + 1) w p hsz hb (by omega)]
    rw [ih ⟨remChunk s (w.buf ++ p), w.size,
          w.out ++ renderChunks (fullChunks s (w.buf ++ p))⟩ hsz
        (remChunk_len s (w.buf ++ p))]
    dsimp only
    have hd := chunks_decomp s (w.buf ++ p) (flat rest)
    have hflat : w.buf ++ p ++ flat rest = w.buf ++ flat (p :: rest) := by
      rw [show flat (p :: rest) = p ++ flat rest from rfl, List.append_assoc]
    rw [hflat] at hd
    simp only [CW.mk.injEq]
    refine ⟨hd.2.symm, ?_⟩
    rw [hd.1, renderChunks_append, List.append_assoc]
    exact ⟨trivial, rfl⟩

/-- The flushed stream when the configured size equals the backing capacity:
the greedy chunking with u16 length prefixes, nonempty chunks bounded by the
size, the `00 00` terminator, and lossless concatenation. -/
theorem cwFold_flush_spec (s : Nat) (ws : List (List Nat)) :
    (flushCW (ws.foldl (chunkWrite (s + 1)) ⟨[], s + 1, []⟩)).out
        = renderChunks (chunksOf s (flat ws)) ++ [0, 0] ∧
    (∀ c ∈ chunksOf s (flat ws), c ≠ [] ∧ c.length ≤ s + 1) ∧
    flat (chunksOf s (flat ws)) = flat ws := by
  refine ⟨?_, ?_, ?_⟩
  · rw [cwFold_spec s ws _ rfl (by simp)]
    unfold flushCW writeChunk chunksOf
    rw [List.nil_append]
    by_cases hrem : remChunk s (flat ws) = []
    · rw [if_pos (by rw [hrem]; rfl)]
      dsimp only
      rw [hrem, if_pos rfl, List.append_nil, List.nil_append]
    · rw [if_neg (by rw [List.length_eq_zero]; exact hrem)]
      dsimp only
      rw [if_neg hrem, renderChunks_append, renderChunks_cons]
      rw [show renderChunks [] = [] from rfl, List.append_nil,
        List.nil_append]
      simp only [List.append_assoc]
  · intro c hc
    unfold chunksOf at hc
    rcases List.mem_append.mp hc with hc | hc
    · have hlen := mem_fullChunks_len s (flat ws) c hc
      refine ⟨?_, by omega⟩
      intro hnil
      rw [hnil] at hlen
      simp at hlen
    · by_cases hrem : remChunk s (flat ws) = []
      · rw [if_pos hrem] at hc; cases hc
      · rw [if_neg hrem] at hc
        rcases List.mem_cons.mp hc with hc | hc
        · subst hc
          have hlen := remChunk_len s (flat ws)
          exact ⟨hrem, by omega⟩
        · cases hc
  · unfold chunksOf
    by_cases hrem : remChunk s (flat ws) = []
    · rw [if_pos hrem, List.append_nil]
      have hfr := flat_fullChunks_rem s (flat ws)
      rw [hrem, List.append_nil] at hfr
      exact hfr
    · rw [if_neg hrem, flat_append,
        show flat [remChunk s (flat ws)] = remChunk s (flat ws) ++ [] from rfl,
        List.append_nil, flat_fullChunks_rem]

/-- C6: the claim as stated is false — the writer does not respect a
configured chunk size below 65535. With the size set to 2 (reachable:
`SetChunkSize(2)` on a fresh encoder just stores the size), one `Write` of
three bytes copies all three at once (the copy is bounded by the 65535-byte
backing array, not by `size`), `n` lands on 3 without ever equalling `size`,
so nothing is flushed mid-write and `Flush` emits a single chunk with a
3-byte payload — exceeding the configured chunk size 2. -/
theorem chunk_overruns_configured_size :
    (cwRun 2 [[7, 8, 9]]).out = [0x00, 0x03, 7, 8, 9, 0x00, 0x00] ∧ 2 < 3 :=
  ⟨by decide, by decide⟩

/-- C6 (amended): at the default chunk size 65535 — the only configured size
that coincides with the backing array, and the only one the writer honours —
the flushed stream is exactly the greedy chunking of the written payload:
every chunk is a big-endian u16 length prefix followed by that many bytes,
inner chunks are nonempty and no larger than the configured 65535, the
`00 00` terminator follows, and the chunk payloads concatenate back to the
bytes written. Below that size `Write`'s block copy overruns the configured
size (see the counterexample). -/
theorem chunkWriter_framing (ws : List (List Nat)) :
    (cwRun 65535 ws).out = renderChunks (chunksOf 65534 (flat ws)) ++ [0, 0] ∧
    (∀ c ∈ chunksOf 65534 (flat ws), c ≠ [] ∧ c.length ≤ 65535) ∧
    flat (chunksOf 65534 (flat ws)) = flat ws :=
  cwFold_flush_spec 65534 ws

/-- C6 (amended) witness: the default-size framing theorem evaluated over
the single write `[7, 8, 9]`. -/
theorem chunkWriter_framing_witness :
    (cwRun 65535 [[7, 8, 9]]).out
        = renderChunks (chunksOf 65534 (flat [[7, 8, 9]])) ++ [0, 0] ∧
    (∀ c ∈ chunksOf 65534 (flat [[7, 8, 9]]), c ≠ [] ∧ c.length ≤ 65535) ∧
    flat (chunksOf 65534 (flat [[7, 8, 9]])) = flat [[7, 8, 9]] :=
  chunkWriter_framing [[7, 8, 9]]

set_option maxRecDepth 4096 in
/-- C1: the codec round-trip claim fails on the code. The encoder writes a
128-byte string with a `String8` header whose length byte is `0x80`, but the
decoder reads that length back through the signed `d.int8()`, sees `−128`,
and panics slicing `d.scratch[0:size]` — so `decode(encode(v))` crashes
rather than returning `v` (the same signed reads break String8/16, Slice8/16
and Map8/16 for sizes with the high bit set). A `RECORD` struct also fails to
round-trip: the encoder writes `Record.Values` as separate struct fields
while `decodeRecordMessage` decodes a single value and requires it to be a
list, so re-decoding an encoded one-field record errors. -/
theorem decode_encode_roundtrip_fails :
    encode (Val.str (List.replicate 128 97)) =
      some (String8 :: 128 :: List.replicate 128 97) ∧
    decodeF 4 (String8 :: 128 :: List.replicate 128 97) = .error .oob ∧
    encode (Val.struct 0x71 [Val.int 1]) = some [0xB1, 0x71, 0x01] ∧
    decodeF 4 [0xB1, 0x71, 0x01] = .error .fail :=
  ⟨rfl, rfl, rfl, rfl⟩

/-- One `SetChunkSize` loop iteration leaves exactly the first `size` live
bytes in place, so the loop guard `n >= size` never becomes false. -/
theorem setSizeIter_buf (w : CW) : (setSizeIter w).buf = w.buf.take w.size := rfl

/-- The loop iteration does not change the chunk size. -/
theorem setSizeIter_size (w : CW) : (setSizeIter w).size = w.size := by
  unfold setSizeIter writeChunk
  dsimp only
  split <;> rfl

/-- Once the buffered bytes reach the (new) chunk size, the
`Encoder.SetChunkSize` flush loop never terminates, whatever the fuel. -/
theorem setSizeLoop_stuck (fuel : Nat) (w : CW) (h : w.size ≤ w.buf.length) :
    setSizeLoop fuel w = none := by
  induction fuel generalizing w with
  | zero => rfl
  | succ n ih =>
    unfold setSizeLoop
    rw [if_neg (by omega)]
    exact ih _ (by rw [setSizeIter_buf, setSizeIter_size, List.length_take]; omega)

/-- C7: the claim is false on the code — `Encoder.SetChunkSize` with five
buffered bytes and a new size of 2 never finishes: after `writeChunk` zeroes
`n`, the slide `copy(buf[:size], buf[n:])` reads from offset 0 and returns
`size`, so every iteration re-emits the first two buffered bytes (`1, 2` as
chunk `00 02 01 02`) and restores `n = size`; the remaining bytes are never
flushed and the loop diverges. -/
theorem setChunkSize_diverges :
    (∀ fuel, SetChunkSize fuel { buf := [1, 2, 3, 4, 5], size := 65535, out := [] }
        2 65535 = none) ∧
    (setSizeIter (setSizeIter (setSizeIter
        { buf := [1, 2, 3, 4, 5], size := 2, out := [] }))).out
      = [0, 2, 1, 2] ++ [0, 2, 1, 2] ++ [0, 2, 1, 2] := by
  constructor
  · intro fuel
    unfold SetChunkSize
    rw [if_neg (by decide), if_neg (by decide)]
    exact setSizeLoop_stuck fuel _ (by decide)
  · decide

/-- C8: the claim is false on the code — `conn.handshake` accepts any
non-zero server selection; it never compares the reply against the proposed
version 1 (the declared `version1_0` is unused), so the selection `2` is
accepted even though it differs from every proposed version. -/
theorem handshake_accepts_version2 :
    handshakeCheck [0, 0, 0, 2] = .ok () ∧
      ([0, 0, 0, 2] : List Nat) ≠ version1 ∧
      ([0, 0, 0, 2] : List Nat) ≠ noSupportedVersions :=
  ⟨rfl, by decide, by decide⟩

/-- C8 (amended): after the 20-byte preamble, the handshake fails exactly on
the all-zero server selection and accepts every non-zero selection, with no
check that it equals the proposed version 1. -/
theorem handshake_zero_only_fatal :
    handshakeBytes.length = 20 ∧
      ∀ vers : List Nat,
        handshakeCheck vers = .error .handshake ↔ vers = noSupportedVersions := by
  refine ⟨rfl, fun vers => ?_⟩
  unfold handshakeCheck
  split_ifs with h <;> simp [h]

/-- C9: the claim fails on the code — `Counters.parse` reads the misspelt
key `"donstraints-removed"`, so a stats map carrying the spec's key
`"constraints-removed"` with value 1 parses to `ConstraintsRemoved = 0`
(and only the misspelt key populates the counter); the correctly spelt
neighbouring keys parse as the spec says. -/
theorem counters_constraints_removed_typo :
    (Counters.parse [("constraints-removed", MVal.int 1)]).ConstraintsRemoved = 0 ∧
    (Counters.parse [("donstraints-removed", MVal.int 1)]).ConstraintsRemoved = 1 ∧
    (Counters.parse [("constraints-added", MVal.int 2)]).ConstraintsAdded = 2 ∧
    (Counters.parse [("nodes-created", MVal.int 3)]).NodesCreated = 3 := by
  refine ⟨by decide, by decide, by decide, by decide⟩

/-- C10: the claim is false on the code — `MaybeMap` panics. Its guard
rejects only `clen > len(m)`, so when the declared chunk length satisfies
`len(m) − 2 < clen ≤ len(m)` the slice `m = m[2+clen:]` is out of range: on
`[0x00 0x05 0xA0 0x00 0x00]` (declared length 5, map marker, only 3 bytes
after the header) the function panics instead of returning false. On a
well-formed one-byte map chunk it returns true. -/
theorem maybeMap_panics_on_short_input :
    MaybeMap [0x00, 0x05, 0xA0, 0x00, 0x00] = none ∧
    MaybeMap [0x00, 0x01, 0xA0, 0x00, 0x00] = some true := by
  refine ⟨by decide, by decide⟩

/-- C5: the claim is false on the code — a codec error does not set the
`bad` flag. After `Decoder.Decode` fails, `lastErr` is latched (so
`conn.decode` keeps returning `io.EOF`), but `bad` stays false and a
subsequent `Query` passes the fail-fast guard: it fails later with the EOF,
not with the bad-connection error. -/
theorem codec_error_leaves_bad_false :
    connDecode ⟨[], ⟨[.error ()], false⟩, .idle, false⟩ =
      (.error .codec, ⟨[], ⟨[], true⟩, .idle, false⟩) ∧
    (connQuery 1 ⟨[], ⟨[], true⟩, .idle, false⟩ "RETURN 1").1 = .error .eof ∧
    Err.eof ≠ Err.badConn :=
  ⟨rfl, rfl, by decide⟩

/-- C5 (amended): a codec or framing failure latches the decoder's
`lastErr`, so every later `conn.decode` fails (with `io.EOF`), but it leaves
`bad` — and hence the fail-fast `BadConnection` guard of the public
operations — untouched; only `checktx` mismatches and a successful `Close`
set `bad`. -/
theorem decode_error_latches (c : Conn) (rest : List (Except Unit Resp))
    (h1 : c.dec.lastErr = false) (h2 : c.dec.script = .error () :: rest) :
    (connDecode c).1 = .error .codec ∧
    ((connDecode c).2).bad = c.bad ∧
    ((connDecode c).2).status = c.status ∧
    ((connDecode c).2).dec.lastErr = true ∧
    (∀ c' : Conn, c'.dec.lastErr = true → (connDecode c').1 = .error .eof) := by
  refine ⟨?_, ?_, ?_, ?_, fun c' hc' => ?_⟩ <;>
    simp [connDecode, decDecode, h1, h2, *]

/-- C5 (amended) witness: the latching behaviour on a concrete connection
whose next decode is a codec failure. -/
theorem decode_error_latches_witness :
    (connDecode ⟨[], ⟨[.error ()], false⟩, .idle, false⟩).1 = .error .codec ∧
    ((connDecode ⟨[], ⟨[.error ()], false⟩, .idle, false⟩).2).bad = false ∧
    ((connDecode ⟨[], ⟨[.error ()], false⟩, .idle, false⟩).2).status = .idle ∧
    ((connDecode ⟨[], ⟨[.error ()], false⟩, .idle, false⟩).2).dec.lastErr = true ∧
    (∀ c' : Conn, c'.dec.lastErr = true → (connDecode c').1 = .error .eof) :=
  decode_error_latches ⟨[], ⟨[.error ()], false⟩, .idle, false⟩ [] rfl rfl

/-- C3: the transaction state machine of `conn.go`. On a good connection:
a successful `BEGIN` from idle moves to `in_tx`; a successful `ROLLBACK`
from `in_tx` or `in_bad_tx` returns to `idle`; `COMMIT` in `in_bad_tx`
first performs the ROLLBACK exchange and then reports the
in-failed-transaction error; and `Begin`/`Commit`/`Rollback` invoked with an
incompatible status (for example a `Commit` once the transaction has closed
and the status is back to idle) set `bad` and fail with the
transaction-status error. -/
theorem tx_state_machine (fuel : Nat) (c : Conn) (md1 md2 : Md)
    (rest : List (Except Unit Resp)) :
    (c.bad = false → c.status = .idle →
      c.dec = ⟨.ok (.success md1) :: .ok (.success md2) :: rest, false⟩ →
      connBegin fuel c =
        (.ok (), ⟨c.sent ++ [.run "BEGIN", .pullAll], ⟨rest, false⟩, .inTx, false⟩)) ∧
    (c.bad = false → c.status.isTx = true →
      c.dec = ⟨.ok (.success md1) :: .ok (.success md2) :: rest, false⟩ →
      connRollback fuel c =
        (.ok (), ⟨c.sent ++ [.run "ROLLBACK", .pullAll], ⟨rest, false⟩, .idle, false⟩)) ∧
    (c.bad = false → c.status = .inBadTx →
      c.dec = ⟨.ok (.success md1) :: .ok (.success md2) :: rest, false⟩ →
      connCommit fuel c =
        (.error .inFailedTx,
          ⟨c.sent ++ [.run "ROLLBACK", .pullAll], ⟨rest, false⟩, .idle, false⟩)) ∧
    (c.bad = false → c.status.isTx = true →
      connBegin fuel c = (.error .txStatus, { c with bad := true })) ∧
    (c.bad = false → c.status = .idle →
      connCommit fuel c = (.error .txStatus, { c with bad := true })) ∧
    (c.bad = false → c.status = .idle →
      connRollback fuel c = (.error .txStatus, { c with bad := true })) := by
  obtain ⟨sent, dec, status, bad⟩ := c
  refine ⟨fun hb hst hd => ?_, fun hb hst hd => ?_, fun hb hst hd => ?_,
    fun hb hst => ?_, fun hb hst => ?_, fun hb hst => ?_⟩
  · simp only at hb hst hd; subst hb hst hd
    simp [connBegin, checktx, Status.isTx, transac, consume, connDecode,
      decDecode, connEncode, txStr]
  · simp only at hb hst hd; subst hb hd
    cases status <;> simp_all [connRollback, checktx, Status.isTx, transac,
      consume, connDecode, decDecode, connEncode, txStr]
  · simp only at hb hst hd; subst hb hst hd
    simp [connCommit, connRollback, checktx, Status.isTx, transac, consume,
      connDecode, decDecode, connEncode, txStr]
  · simp only at hb hst; subst hb
    cases status <;> simp_all [connBegin, checktx, Status.isTx]
  · simp only at hb hst; subst hb hst
    simp [connCommit, checktx, Status.isTx]
  · simp only at hb hst; subst hb hst
    simp [connRollback, checktx, Status.isTx]

/-- C3 witness: the machine run on a concrete idle connection answering
`BEGIN` with two successes. -/
theorem tx_state_machine_witness :
    connBegin 1 ⟨[], ⟨[.ok (.success []), .ok (.success [])], false⟩, .idle, false⟩ =
      (.ok (), ⟨[.run "BEGIN", .pullAll], ⟨[], false⟩, .inTx, false⟩) := by
  have h := (tx_state_machine 1
    ⟨[], ⟨[.ok (.success []), .ok (.success [])], false⟩, .idle, false⟩
    [] [] []).1 rfl rfl rfl
  simpa using h

/-- Draining a run of `RECORD` responses: `consumeAll` collects them and
stops at the terminal `SUCCESS`, leaving the rest of the stream intact. -/
theorem consumeAll_records (recs : List (List MVal)) :
    ∀ (fuel : Nat) (c : Conn) (termMd : Md) (rest : List (Except Unit Resp)),
      c.dec = ⟨(recs.map fun v => .ok (.record v)) ++ .ok (.success termMd) :: rest,
        false⟩ →
      recs.length + 1 ≤ fuel →
      consumeAll fuel c =
        (.ok (recs.map Resp.record, termMd), { c with dec := ⟨rest, false⟩ }) := by
  induction recs with
  | nil =>
    intro fuel c termMd rest hdec hfuel
    match fuel, hfuel with
    | f + 1, _ =>
      obtain ⟨sent, dec, status, bad⟩ := c
      simp only at hdec
      subst hdec
      simp [consumeAll, consume, connDecode, decDecode]
  | cons v vs ih =>
    intro fuel c termMd rest hdec hfuel
    match fuel, hfuel with
    | f + 1, hf =>
      obtain ⟨sent, dec, status, bad⟩ := c
      simp only at hdec
      subst hdec
      have hstep : consume f ⟨sent,
          ⟨((v :: vs).map fun v => .ok (.record v)) ++ .ok (.success termMd) :: rest,
            false⟩, status, bad⟩ =
          (.ok (.record v), ⟨sent,
            ⟨(vs.map fun v => .ok (.record v)) ++ .ok (.success termMd) :: rest,
              false⟩, status, bad⟩) := by
        simp [consume, connDecode, decDecode]
      have hrec := ih f ⟨sent,
        ⟨(vs.map fun v => .ok (.record v)) ++ .ok (.success termMd) :: rest,
          false⟩, status, bad⟩ termMd rest rfl (by simp at hf; omega)
      simp only [consumeAll, hstep, hrec]
      simp

/-- C4 (amended): the exec flow. On an open statement whose stream answers
the run header with `SUCCESS`, then some records, then a terminal `SUCCESS`,
`stmt.exec` sends `RUN` followed by `PULL_ALL` (not `DISCARD_ALL`), drains
the records, and reports rows affected as
`nodes_created + nodes_deleted + relationships_created +
relationships_deleted` taken from the terminal metadata's `stats` map. -/
theorem exec_flow (fuel : Nat) (s : Stmt) (hdr termMd : Md) (stats : Md)
    (recs : List (List MVal)) (rest : List (Except Unit Resp))
    (hclosed : s.closed = false)
    (hdec : s.conn.dec = ⟨.ok (.success hdr) ::
      ((recs.map fun v => .ok (.record v)) ++ .ok (.success termMd) :: rest), false⟩)
    (hstats : mdLookup termMd "stats" = some (.map stats))
    (hfuel : recs.length + 2 ≤ fuel) :
    stmtExec fuel s =
      (.ok (statsFor stats "nodes-created" + statsFor stats "nodes-deleted" +
          statsFor stats "relationships-created" +
          statsFor stats "relationships-deleted"),
        ⟨s.conn.sent ++ [.run s.query, .pullAll], ⟨rest, false⟩,
          s.conn.status, s.conn.bad⟩) := by
  obtain ⟨⟨sent, dec, status, bad⟩, q, closed⟩ := s
  simp only at hclosed hdec
  subst hclosed hdec
  match fuel, hfuel with
  | f + 2, hf =>
    have hstep : consume (f + 2)
        (connEncode (connEncode ⟨sent, ⟨.ok (.success hdr) ::
          ((recs.map fun v => .ok (.record v)) ++ .ok (.success termMd) :: rest),
            false⟩, status, bad⟩ (.run q)) .pullAll) =
        (.ok (.success hdr), ⟨(sent ++ [.run q]) ++ [.pullAll],
          ⟨(recs.map fun v => .ok (.record v)) ++ .ok (.success termMd) :: rest,
            false⟩, status, bad⟩) := by
      simp [consume, connDecode, decDecode, connEncode]
    have hall := consumeAll_records recs (f + 2) ⟨(sent ++ [.run q]) ++ [.pullAll],
      ⟨(recs.map fun v => .ok (.record v)) ++ .ok (.success termMd) :: rest,
        false⟩, status, bad⟩ termMd rest rfl (by simp at hf; omega)
    simp only [stmtExec, hstep, hall]
    simp [parseSuccessCounters, hstats, RowsAffected, Counters.parse]

/-- C4 (amended) witness: a concrete exec whose terminal stats report two
nodes created and three relationships deleted — five rows affected. -/
theorem exec_flow_witness :
    stmtExec 3 ⟨⟨[], ⟨[.ok (.success []), .ok (.record []),
        .ok (.success [("stats", .map [("nodes-created", .int 2),
          ("relationships-deleted", .int 3)])])], false⟩, .idle, false⟩,
      "CREATE (n)", false⟩ =
      (.ok 5, ⟨[.run "CREATE (n)", .pullAll], ⟨[], false⟩, .idle, false⟩) := by
  have h := exec_flow 3 ⟨⟨[], ⟨[.ok (.success []), .ok (.record []),
      .ok (.success [("stats", .map [("nodes-created", .int 2),
        ("relationships-deleted", .int 3)])])], false⟩, .idle, false⟩,
      "CREATE (n)", false⟩ [] [("stats", .map [("nodes-created", .int 2),
        ("relationships-deleted", .int 3)])]
      [("nodes-created", .int 2), ("relationships-deleted", .int 3)]
      [[]] [] rfl rfl rfl (by decide)
  simpa using h

/-- C4: the claim as stated is false — `stmt.exec` goes through `s.pull`,
which sends `RUN` followed by `PULL_ALL`; no `DISCARD_ALL` is ever sent
(`sendRunDiscardAll` exists in `conn.go` but has no caller in the exec
path). -/
theorem exec_sends_pull_all_not_discard :
    (stmtExec 4 ⟨⟨[], ⟨[.ok (.success []), .ok (.success [])], false⟩, .idle, false⟩,
        "CREATE (n)", false⟩).2.sent = [.run "CREATE (n)", .pullAll] ∧
    (Msg.pullAll ∈ [Msg.run "CREATE (n)", Msg.pullAll]) ∧
    (Msg.discardAll ∉ [Msg.run "CREATE (n)", Msg.pullAll]) :=
  ⟨rfl, by decide, by decide⟩

end Bolt
